import Mathlib

/-!
Verification development for the HttpTimeTravelProxy repository.

Strings are modelled as `List Char`; raw socket bytes as `List Nat`
(each entry one byte).  The definitions below are shallow embeddings of
the functions in `src/HttpTimeTravelProxy.js` (the primary
implementation); where the Go port `src/main.go` differs this is noted
in the doc comments.
-/

/-- Characters treated as line terminators by the `.` regex metachar in
JavaScript: LF, CR, U+2028, U+2029. -/
def isLineTerminator (c : Char) : Bool :=
  c == '\n' || c == '\r' || c.toNat == 0x2028 || c.toNat == 0x2029

/-- Membership in the regex character class `[0-9a-z_]` used for the
timestamp-and-flags capture group of `WAYBACK_URL_FORMAT`. -/
def isTsChar (c : Char) : Bool :=
  decide (48 ≤ c.toNat ∧ c.toNat ≤ 57) ||
  decide (97 ≤ c.toNat ∧ c.toNat ≤ 122) || c == '_'

/-- Whitespace recognised by JavaScript `String.prototype.trim`
(ECMAScript WhiteSpace and LineTerminator code points). -/
def isJsSpace (c : Char) : Bool :=
  decide (9 ≤ c.toNat ∧ c.toNat ≤ 13) || c.toNat == 32 ||
  c.toNat == 0xA0 || c.toNat == 0x1680 ||
  decide (0x2000 ≤ c.toNat ∧ c.toNat ≤ 0x200A) ||
  c.toNat == 0x2028 || c.toNat == 0x2029 || c.toNat == 0x202F ||
  c.toNat == 0x205F || c.toNat == 0x3000 || c.toNat == 0xFEFF

/-- Model of JavaScript `String.prototype.trim`: drop surrounding
whitespace. -/
def jsTrim (s : List Char) : List Char :=
  ((s.dropWhile isJsSpace).reverse.dropWhile isJsSpace).reverse

/-- The constant `WAYBACK_URL = "https://web.archive.org/web/"`. -/
def waybackUrlChars : List Char := "https://web.archive.org/web/".data

/-- The constant `TIME_TRAVEL_DATETIME = "19990412"`. -/
def timeTravelDatetime : List Char := "19990412".data

/-- The constant `PROXY_SERVER_NAME = "HttpTimeTravelProxy/0.1"`. -/
def proxyServerName : List Char := "HttpTimeTravelProxy/0.1".data

/-- One element of a regex pattern over characters: a literal
character, or the `.` metachar (any char except a line terminator). -/
inductive PatChar where
  | lit : Char → PatChar
  | dot : PatChar
deriving DecidableEq

/-- Whether a single pattern element accepts a character. -/
def matchPatChar : PatChar → Char → Bool
  | .lit a, c => a == c
  | .dot, c => !(isLineTerminator c)

/-- Match a fixed-length pattern against the front of a string,
returning the remainder on success. -/
def matchPrefixPat : List PatChar → List Char → Option (List Char)
  | [], s => some s
  | _ :: _, [] => none
  | p :: ps, c :: s => if matchPatChar p c then matchPrefixPat ps s else none

/-- The base part of `WAYBACK_URL_FORMAT` as the JavaScript engine sees
it.  The source writes the regex in an ordinary string literal
`"https:\/\/web\.archive\.org\/web\/..."`; in a JavaScript string
`\.` is just `.`, so the three dots are UNESCAPED regex metachars
matching any non-line-terminator character. -/
def basePatJs : List PatChar :=
  ("https://web".data.map PatChar.lit) ++ [PatChar.dot] ++
  ("archive".data.map PatChar.lit) ++ [PatChar.dot] ++
  ("org/web/".data.map PatChar.lit)

/-- The base pattern with the dots taken literally, as in the Go port
(`src/main.go` escapes them: `https://web\.archive\.org/web/`) and as
the spec's "fixed pattern `<archiveBase>/...`" reads. -/
def basePatLit : List PatChar := "https://web.archive.org/web/".data.map PatChar.lit

/-- Match the full pattern `<base>([0-9a-z_]*)/(.*)` anchored at the
current position; on success return the two capture groups.  The
character class excludes `/`, so the greedy group never backtracks:
the group is the maximal `[0-9a-z_]` run and must be followed by `/`;
`(.*)` then greedily captures up to the first line terminator. -/
def matchAtPat (pat : List PatChar) (s : List Char) : Option (List Char × List Char) :=
  match matchPrefixPat pat s with
  | none => none
  | some rest =>
    match rest.dropWhile isTsChar with
    | c :: tail =>
      if c == '/' then
        some (rest.takeWhile isTsChar, tail.takeWhile (fun c => !(isLineTerminator c)))
      else none
    | [] => none

/-- Unanchored regex search (JavaScript `RegExp.exec` / Go
`FindStringSubmatch`): try the pattern at each position left to
right and return the first (leftmost) match. -/
def findMatchPat (pat : List PatChar) : List Char → Option (List Char × List Char)
  | [] => none
  | c :: rest =>
    match matchAtPat pat (c :: rest) with
    | some r => some r
    | none => findMatchPat pat rest

/-- Embedding of `getOriginalUrl` (HttpTimeTravelProxy.js lines
320-331): run `WAYBACK_URL_FORMAT` against the url; on a match return
the second capture group trimmed, otherwise the input unchanged.  (The
JavaScript also checks `part.length == 3`, which always holds for a
successful match of a two-group pattern.) -/
def getOriginalUrl (translatedUrl : List Char) : List Char :=
  match findMatchPat basePatJs translatedUrl with
  | some (_, tail) => jsTrim tail
  | none => translatedUrl

/-- Whether a string matches the fixed archive pattern
`<archiveBase>/([0-9a-z_]*)/(.*)` with the archive base taken
literally (dots escaped), as the spec describes and the Go port
implements. -/
def matchesFixedArchivePattern (s : List Char) : Bool :=
  (findMatchPat basePatLit s).isSome

/-- The archive-qualified URL `WAYBACK_URL + <timestamp> + "id_/" + <url>`
built in `getTargetUrl` (HttpTimeTravelProxy.js lines 92-93 and 106). -/
def encodeArchiveUrl (timestamp sourceUrl : List Char) : List Char :=
  waybackUrlChars ++ timestamp ++ "id_/".data ++ sourceUrl

/-- Abstraction of the parsed JSON body of the availability-lookup
response: which of the nested properties `archived_snapshots` and
`archived_snapshots.closest` are present, and the `timestamp` of the
closest snapshot when it is. -/
structure AvailJson where
  hasArchivedSnapshots : Bool
  hasClosest : Bool
  closestTimestamp : List Char
deriving DecidableEq

/-- Embedding of `getTargetUrl` (HttpTimeTravelProxy.js lines 86-116)
from the parsed lookup JSON on: start from the default archive URL for
the configured date; if `archived_snapshots.closest` exists use its
timestamp; if `archived_snapshots` exists without `closest` reset the
result to null (`none`); if `archived_snapshots` is absent the default
stands. -/
def getTargetUrl (sourceUrl : List Char) (json : AvailJson) : Option (List Char) :=
  if json.hasArchivedSnapshots then
    if json.hasClosest then
      some (encodeArchiveUrl json.closestTimestamp sourceUrl)
    else
      none
  else
    some (encodeArchiveUrl timeTravelDatetime sourceUrl)

/-- The redirect-reconciliation comparison from `httpRequest`
(HttpTimeTravelProxy.js lines 361-363), applied to the two decoded
URLs: `a == b || a == b + "/" || a + "/" == b`. -/
def isEquivalent (a b : List Char) : Bool :=
  a == b || a == b ++ ['/'] || a ++ ['/'] == b

/-- What one upstream HTTP exchange yields: status code, the
`Location` header (empty when absent), the `Content-Type` header and
the raw body bytes. -/
structure UpstreamResponse where
  statusCode : Nat
  location : List Char
  contentType : List Char
  body : List Nat
deriving DecidableEq

/-- Behaviour of the network for one outbound request: either an HTTP
response or a transport error (the `request.on('error')` path). -/
inductive UpstreamReply where
  | reply : UpstreamResponse → UpstreamReply
  | netError : UpstreamReply
deriving DecidableEq

/-- Settlement of the promise returned by `httpRequest`: `ok` for a
resolution with the response, `err sc` for a rejection whose carried
value has status code `sc` (`none` models a rejection value without a
`statusCode` property, such as a transport error). -/
inductive FetchResult where
  | ok : UpstreamResponse → FetchResult
  | err : Option Nat → FetchResult
deriving DecidableEq

/-- Embedding of `httpRequest` (HttpTimeTravelProxy.js lines 339-393)
over an abstract upstream.  On a 301/302 whose decoded `Location`
is equivalent to the decoded request URL, recurse into the
`Location` URL; otherwise reject responses whose status is outside
[200,299] and not 301/302, and resolve everything else.  The source
recursion has no depth bound, so the embedding takes explicit fuel;
`none` means the recursion did not terminate within the given fuel. -/
def httpRequest : Nat → (List Char → UpstreamReply) → List Char → Option FetchResult
  | 0, _, _ => none
  | fuel + 1, upstream, url =>
    match upstream url with
    | .netError => some (.err none)
    | .reply response =>
      if (response.statusCode == 302 || response.statusCode == 301)
          && isEquivalent (getOriginalUrl response.location) (getOriginalUrl url) then
        httpRequest fuel upstream response.location
      else if (decide (response.statusCode < 200) || decide (response.statusCode > 299))
          && !(response.statusCode == 302) && !(response.statusCode == 301) then
        some (.err (some response.statusCode))
      else
        some (.ok response)

/-- An upstream that answers every request with a 302 redirect to the
requested URL itself (an always-equivalent `Location`). -/
def loopUpstream : List Char → UpstreamReply :=
  fun url => .reply ⟨302, url, [], []⟩

/-- UTF-8 encoding of one character (what `Buffer.from(string)`
produces per character). -/
def utf8Bytes (c : Char) : List Nat :=
  let n := c.toNat
  if n < 0x80 then [n]
  else if n < 0x800 then [0xC0 + n / 64, 0x80 + n % 64]
  else if n < 0x10000 then [0xE0 + n / 4096, 0x80 + (n / 64) % 64, 0x80 + n % 64]
  else [0xF0 + n / 262144, 0x80 + (n / 4096) % 64, 0x80 + (n / 64) % 64, 0x80 + n % 64]

/-- UTF-8 encoding of a string, as `Buffer.from` / `socket.write`
perform when given a JavaScript string. -/
def utf8Encode (s : List Char) : List Nat :=
  (s.map utf8Bytes).flatten

/-- Decimal rendering of a number, as JavaScript string concatenation
with a number produces. -/
def natToStr (n : Nat) : List Char := Nat.toDigits 10 n

/-- The status/content data handed to `returnHttpResponse`: status
code and reason text, `Content-Type` value, and the body bytes. -/
structure ClientResponse where
  code : Nat
  text : List Char
  contentType : List Char
  body : List Nat
deriving DecidableEq

/-- Embedding of `returnHttpResponse` (HttpTimeTravelProxy.js lines
204-222): the byte stream written to the socket, built from six
buffers: status line, `Server` header, `Content-Type` header,
`Content-Length` header carrying `Buffer.byteLength` of the body (its
byte count), a blank line, and the raw body bytes. -/
def returnHttpResponseBytes (r : ClientResponse) : List Nat :=
  utf8Encode ("HTTP/1.1 ".data ++ natToStr r.code ++ " ".data ++ r.text ++ "\r\n".data)
  ++ utf8Encode ("Server: ".data ++ proxyServerName ++ "\r\n".data)
  ++ utf8Encode ("Content-Type: ".data ++ r.contentType ++ "\r\n".data)
  ++ utf8Encode ("Content-Length: ".data ++ natToStr r.body.length ++ "\r\n".data)
  ++ utf8Encode "\r\n".data
  ++ r.body

/-- The `statusText` lookup in `returnHttpRedirect`: 301 and 302 have
entries; any other code reads `undefined` from the object, which
stringifies to "undefined". -/
def redirectStatusText (statusCode : Nat) : List Char :=
  if statusCode = 301 then "Moved Permanently".data
  else if statusCode = 302 then "Found".data
  else "undefined".data

/-- Embedding of `returnHttpRedirect` (HttpTimeTravelProxy.js lines
183-193): a status line, a `Location` header and a blank line —
no `Server`, `Content-Type` or `Content-Length` header and no body. -/
def returnHttpRedirectBytes (statusCode : Nat) (locationUrl : List Char) : List Nat :=
  utf8Encode ("HTTP/1.1 ".data ++ natToStr statusCode ++ " ".data
    ++ redirectStatusText statusCode ++ "\r\n".data
    ++ "Location: ".data ++ locationUrl ++ "\r\n".data ++ "\r\n".data)

/-- The HTML body built by `returnHttpNotFound` (lines 231-253),
embedding the originally requested url. -/
def notFoundHtml (url : List Char) : List Char :=
  "<!DOCTYPE HTML PUBLIC \"-//IETF//DTD HTML 2.0//EN\">\r\n<html><head>\r\n<title>404 Not Found</title>\r\n</head><body>\r\n<h1>Not Found</h1>\r\nThe remote server could not find the content:<br>\r\n<b>".data
  ++ url ++ "<b>\r\n</body></html>\r\n".data

/-- The 404 response `returnHttpNotFound` hands to
`returnHttpResponse`. -/
def notFoundResponse (url : List Char) : ClientResponse :=
  ⟨404, "Not Found".data, "text/html".data, utf8Encode (notFoundHtml url)⟩

/-- The HTML body built by `returnHttpBadGateway` (lines 261-283),
embedding the diagnostic text.  (Its `h1` reads "Bad Request" in the
source; kept as-is.) -/
def badGatewayHtml (text : List Char) : List Char :=
  "<!DOCTYPE HTML PUBLIC \"-//IETF//DTD HTML 2.0//EN\">\r\n<html><head>\r\n<title>502 Bad Gateway</title>\r\n</head><body>\r\n<h1>Bad Request</h1>\r\nThe proxy server encountered a problem when fetching the content:<br>\r\n<b>".data
  ++ text ++ "<b>\r\n</body></html>\r\n".data

/-- The 502 response `returnHttpBadGateway` hands to
`returnHttpResponse`. -/
def badGatewayResponse (text : List Char) : ClientResponse :=
  ⟨502, "Bad Gateway".data, "text/html".data, utf8Encode (badGatewayHtml text)⟩

/-- The fixed HTML body built by `returnHttpBadRequest` (lines
290-312). -/
def badRequestHtml : List Char :=
  "<!DOCTYPE HTML PUBLIC \"-//IETF//DTD HTML 2.0//EN\">\r\n<html><head>\r\n<title>400 Bad Request</title>\r\n</head><body>\r\n<h1>Bad Request</h1>\r\nThe proxy server cannot understand the request or does not support the request method.\r\n</body></html>\r\n".data

/-- The 400 response `returnHttpBadRequest` hands to
`returnHttpResponse`. -/
def badRequestResponse : ClientResponse :=
  ⟨400, "Bad Request".data, "text/html".data, utf8Encode badRequestHtml⟩

/-- The diagnostic text `'The remote server returned HTTP ' +
ex.statusCode` from the catch block of `returnProxyResponse`; a
rejection without a `statusCode` property stringifies it as
"undefined". -/
def remoteErrText : Option Nat → List Char
  | some sc => "The remote server returned HTTP ".data ++ natToStr sc
  | none => "The remote server returned HTTP undefined".data

/-- What the connection handler writes back for one request: either a
full response through `returnHttpResponse`, or a redirect (status code
and `Location` value) through `returnHttpRedirect`. -/
inductive ClientWrite where
  | response : ClientResponse → ClientWrite
  | redirect : Nat → List Char → ClientWrite
deriving DecidableEq

/-- How `returnProxyResponse` (HttpTimeTravelProxy.js lines 124-174)
turns the settled content fetch into the client write: a resolved
301/302 becomes a relayed redirect with the decoded `Location`; any
other resolution becomes a 200 response with the upstream body; a
rejection becomes 404 when its status code is 404 and 502 otherwise.
`none` (the fetch never settles) writes nothing. -/
def dispatchFetched (url : List Char) : Option FetchResult → Option ClientWrite
  | none => none
  | some (.ok r) =>
    if r.statusCode == 301 || r.statusCode == 302 then
      some (.redirect r.statusCode (getOriginalUrl r.location))
    else
      some (.response ⟨200, "OK".data, r.contentType, r.body⟩)
  | some (.err sc) =>
    if sc == some 404 then some (.response (notFoundResponse url))
    else some (.response (badGatewayResponse (remoteErrText sc)))

/-- Embedding of `returnProxyResponse`: the availability lookup may
throw (`Except.error sc`, handled by the same catch block), report the
content unavailable (`getTargetUrl` returning null, answered 404), or
produce a target URL that is fetched and dispatched. -/
def returnProxyResponse (url : List Char) (avail : Except (Option Nat) AvailJson)
    (upstream : List Char → UpstreamReply) (fuel : Nat) : Option ClientWrite :=
  match avail with
  | .error sc =>
    if sc == some 404 then some (.response (notFoundResponse url))
    else some (.response (badGatewayResponse (remoteErrText sc)))
  | .ok json =>
    match getTargetUrl url json with
    | none => some (.response (notFoundResponse url))
    | some targetUrl => dispatchFetched url (httpRequest fuel upstream targetUrl)

/-- Prepend a character to the first piece of a split (helper for the
string splitters). -/
def consHead (c : Char) : List (List Char) → List (List Char)
  | [] => [[c]]
  | x :: xs => (c :: x) :: xs

/-- JavaScript `String.prototype.split` on a single-character
separator: split at every occurrence, keeping empty pieces. -/
def splitChar (sep : Char) : List Char → List (List Char)
  | [] => [[]]
  | c :: rest =>
    if c == sep then [] :: splitChar sep rest
    else consHead c (splitChar sep rest)

/-- JavaScript `String.prototype.split` on the separator `"\r\n"`:
split at every (leftmost) occurrence, keeping empty pieces. -/
def splitCRLF : List Char → List (List Char)
  | '\r' :: '\n' :: rest => [] :: splitCRLF rest
  | c :: rest => consHead c (splitCRLF rest)
  | [] => [[]]

/-- What the data handler decides to do with one client chunk. -/
inductive HandlerStep where
  | dispatch : List Char → HandlerStep
  | badRequest : HandlerStep
deriving DecidableEq

/-- Embedding of the server data handler (HttpTimeTravelProxy.js lines
46-71): split the chunk on CRLF, take the first line, split it on
spaces; with exactly 3 tokens whose first, trimmed and lowercased, is
"get", dispatch the second token to `returnProxyResponse`; otherwise
answer with `returnHttpBadRequest`.  (`Char.toLower` models the ASCII
part of `toLowerCase`, the only part that can produce "get".) -/
def handleData (chunk : List Char) : HandlerStep :=
  let clientRequest := splitCRLF chunk
  if clientRequest.length > 0 then
    let proxyRequest := splitChar ' ' (clientRequest.headD [])
    if proxyRequest.length == 3 then
      if (jsTrim (proxyRequest.headD [])).map Char.toLower == "get".data then
        .dispatch (proxyRequest.getD 1 [])
      else .badRequest
    else .badRequest
  else .badRequest

/-- One full connection turn: parse the chunk; a bad request is
answered with the fixed 400 response, a dispatch runs the proxy
pipeline against the given availability outcome and upstream. -/
def handleChunk (chunk : List Char) (avail : Except (Option Nat) AvailJson)
    (upstream : List Char → UpstreamReply) (fuel : Nat) : Option ClientWrite :=
  match handleData chunk with
  | .badRequest => some (.response badRequestResponse)
  | .dispatch url => returnProxyResponse url avail upstream fuel

/-- The status code of a client write. -/
def statusOfWrite : ClientWrite → Nat
  | .response r => r.code
  | .redirect sc _ => sc

/-- Split a byte stream at the first blank line (the first occurrence
of CRLF CRLF), returning the bytes before it and after it; `none` when
there is no blank line. -/
def splitAtBlank : List Nat → Option (List Nat × List Nat)
  | b1 :: b2 :: b3 :: b4 :: rest =>
    if b1 = 13 ∧ b2 = 10 ∧ b3 = 13 ∧ b4 = 10 then some ([], rest)
    else
      match splitAtBlank (b2 :: b3 :: b4 :: rest) with
      | some p => some (b1 :: p.1, p.2)
      | none => none
  | _ => none

/-- Prepend a byte to the first piece of a split (helper for
`splitLinesBytes`). -/
def consHeadB (b : Nat) : List (List Nat) → List (List Nat)
  | [] => [[b]]
  | x :: xs => (b :: x) :: xs

/-- Split a byte stream into lines at every CRLF. -/
def splitLinesBytes : List Nat → List (List Nat)
  | b1 :: b2 :: rest =>
    if b1 = 13 ∧ b2 = 10 then [] :: splitLinesBytes rest
    else consHeadB b1 (splitLinesBytes (b2 :: rest))
  | [b] => [[b]]
  | [] => [[]]

/-- A byte that is ASCII and neither CR nor LF — the well-formedness
assumption for header field values. -/
def headerChar (c : Char) : Bool :=
  decide (c.toNat < 128 ∧ c.toNat ≠ 13 ∧ c.toNat ≠ 10)

/-! Helper lemmas. -/

theorem takeWhile_append_of_all {α} (p : α → Bool) {l : List α} (r : List α)
    (h : ∀ c ∈ l, p c = true) : (l ++ r).takeWhile p = l ++ r.takeWhile p := by
  induction l with
  | nil => rfl
  | cons a t ih =>
    have ha : p a = true := h a (List.mem_cons_self a t)
    show List.takeWhile p (a :: (t ++ r)) = a :: (t ++ r.takeWhile p)
    rw [List.takeWhile_cons, if_pos ha]
    exact congrArg (List.cons a) (ih fun c hc => h c (List.mem_cons_of_mem a hc))

theorem dropWhile_append_of_all {α} (p : α → Bool) {l : List α} (r : List α)
    (h : ∀ c ∈ l, p c = true) : (l ++ r).dropWhile p = r.dropWhile p := by
  induction l with
  | nil => rfl
  | cons a t ih =>
    have ha : p a = true := h a (List.mem_cons_self a t)
    show List.dropWhile p (a :: (t ++ r)) = r.dropWhile p
    rw [List.dropWhile_cons, if_pos ha]
    exact ih fun c hc => h c (List.mem_cons_of_mem a hc)

theorem takeWhile_of_all {α} (p : α → Bool) {l : List α}
    (h : ∀ c ∈ l, p c = true) : l.takeWhile p = l := by
  have h0 := takeWhile_append_of_all p [] h
  simpa using h0

theorem utf8Encode_cons (c : Char) (s : List Char) :
    utf8Encode (c :: s) = utf8Bytes c ++ utf8Encode s := by
  simp [utf8Encode]

theorem utf8Encode_append (a b : List Char) :
    utf8Encode (a ++ b) = utf8Encode a ++ utf8Encode b := by
  simp [utf8Encode]

theorem utf8Bytes_ascii {c : Char} (h : c.toNat < 128) : utf8Bytes c = [c.toNat] := by
  simp [utf8Bytes, h]

theorem utf8Encode_ascii {s : List Char} (h : ∀ c ∈ s, c.toNat < 128) :
    utf8Encode s = s.map Char.toNat := by
  induction s with
  | nil => rfl
  | cons a t ih =>
    rw [utf8Encode_cons, utf8Bytes_ascii (h a (by simp)), List.map_cons,
      ih (fun c hc => h c (by simp [hc]))]
    rfl

theorem headerChar_spec {c : Char} (h : headerChar c = true) :
    c.toNat < 128 ∧ c.toNat ≠ 13 ∧ c.toNat ≠ 10 := by
  simpa [headerChar] using h

theorem utf8Encode_of_headerChars {s : List Char} (h : ∀ c ∈ s, headerChar c = true) :
    utf8Encode s = s.map Char.toNat := by
  exact utf8Encode_ascii (fun c hc => (headerChar_spec (h c hc)).1)

theorem mem_utf8Encode_safe {s : List Char} (h : ∀ c ∈ s, headerChar c = true) :
    ∀ b ∈ utf8Encode s, b ≠ 13 ∧ b ≠ 10 := by
  intro b hb
  rw [utf8Encode_of_headerChars h] at hb
  obtain ⟨c, hc, rfl⟩ := List.mem_map.mp hb
  exact ⟨(headerChar_spec (h c hc)).2.1, (headerChar_spec (h c hc)).2.2⟩

theorem digitChar_headerChar {m : Nat} (h : m < 10) :
    headerChar (Nat.digitChar m) = true := by
  interval_cases m <;> decide

theorem toDigitsCore_all_headerChar (fuel : Nat) :
    ∀ (n : Nat) (ds : List Char), (∀ c ∈ ds, headerChar c = true) →
    ∀ c ∈ Nat.toDigitsCore 10 fuel n ds, headerChar c = true := by
  induction fuel with
  | zero => intro n ds hds; simpa [Nat.toDigitsCore] using hds
  | succ f ih =>
    intro n ds hds c hc
    rw [Nat.toDigitsCore] at hc
    by_cases h0 : n / 10 = 0
    · rw [if_pos h0] at hc
      rcases List.mem_cons.mp hc with h | h
      · subst h; exact digitChar_headerChar (Nat.mod_lt _ (by norm_num))
      · exact hds c h
    · rw [if_neg h0] at hc
      refine ih (n / 10) (Nat.digitChar (n % 10) :: ds) ?_ c hc
      intro d hd
      rcases List.mem_cons.mp hd with h | h
      · subst h; exact digitChar_headerChar (Nat.mod_lt _ (by norm_num))
      · exact hds d h

theorem natToStr_all_headerChar (n : Nat) :
    ∀ c ∈ natToStr n, headerChar c = true := by
  exact toDigitsCore_all_headerChar (n + 1) n [] (by simp)

theorem splitAtBlank_some_shape {r : List Nat} {p : List Nat × List Nat}
    (h : splitAtBlank r = some p) : ∃ a b c d t, r = a :: b :: c :: d :: t := by
  match r with
  | a :: b :: c :: d :: t => exact ⟨a, b, c, d, t, rfl⟩
  | [] => exact absurd h (by simp [splitAtBlank])
  | [a] => exact absurd h (by simp [splitAtBlank])
  | [a, b] => exact absurd h (by simp [splitAtBlank])
  | [a, b, c] => exact absurd h (by simp [splitAtBlank])

theorem splitAtBlank_cons {b : Nat} {rest : List Nat} {p : List Nat × List Nat}
    (hb : b ≠ 13) (h : splitAtBlank rest = some p) :
    splitAtBlank (b :: rest) = some (b :: p.1, p.2) := by
  obtain ⟨a1, a2, a3, a4, t, rfl⟩ := splitAtBlank_some_shape h
  rw [splitAtBlank, if_neg (by simp [hb]), h]

theorem splitAtBlank_append {l r : List Nat} {p : List Nat × List Nat}
    (hl : ∀ b ∈ l, b ≠ 13) (h : splitAtBlank r = some p) :
    splitAtBlank (l ++ r) = some (l ++ p.1, p.2) := by
  induction l with
  | nil => simpa using h
  | cons a t ih =>
    have := splitAtBlank_cons (hl a (by simp))
      (ih (fun b hb => hl b (by simp [hb])))
    simpa using this

theorem splitAtBlank_blank (rest : List Nat) :
    splitAtBlank (13 :: 10 :: 13 :: 10 :: rest) = some ([], rest) := by
  rw [splitAtBlank, if_pos ⟨rfl, rfl, rfl, rfl⟩]

theorem splitAtBlank_crlf_cons {r2 : Nat} {rest : List Nat} {p : List Nat × List Nat}
    (h2 : r2 ≠ 13) (h : splitAtBlank (r2 :: rest) = some p) :
    splitAtBlank (13 :: 10 :: r2 :: rest) = some (13 :: 10 :: p.1, p.2) := by
  obtain ⟨a1, a2, a3, a4, t, heq⟩ := splitAtBlank_some_shape h
  injection heq with h1 hrest
  subst hrest
  have hinner : splitAtBlank (10 :: r2 :: a2 :: a3 :: a4 :: t) = some (10 :: p.1, p.2) :=
    splitAtBlank_cons (by norm_num) h
  rw [splitAtBlank, if_neg (by simp [h2]), hinner]

theorem splitLinesBytes_noCR {l : List Nat} (h : ∀ b ∈ l, b ≠ 13) :
    splitLinesBytes l = [l] := by
  induction l with
  | nil => rfl
  | cons a t ih =>
    cases t with
    | nil => rfl
    | cons b t2 =>
      have ha : a ≠ 13 := h a (by simp)
      rw [splitLinesBytes, if_neg (by simp [ha]),
        ih (fun x hx => h x (by simp [hx]))]
      rfl

theorem splitLinesBytes_append {l r : List Nat} (h : ∀ b ∈ l, b ≠ 13) :
    splitLinesBytes (l ++ 13 :: 10 :: r) = l :: splitLinesBytes r := by
  induction l with
  | nil => rw [List.nil_append, splitLinesBytes, if_pos ⟨rfl, rfl⟩]
  | cons a t ih =>
    have ha : a ≠ 13 := h a (by simp)
    cases ht : t ++ 13 :: 10 :: r with
    | nil => exact absurd ht (by simp)
    | cons b rest2 =>
      rw [List.cons_append, ht, splitLinesBytes, if_neg (by simp [ha]), ← ht,
        ih (fun x hx => h x (by simp [hx]))]
      rfl

theorem matchPrefixPat_base (rest : List Char) :
    matchPrefixPat basePatJs (waybackUrlChars ++ rest) = some rest := rfl

theorem findMatchPat_of_matchAt {pat : List PatChar} {s : List Char}
    {r : List Char × List Char} (hs : s ≠ []) (h : matchAtPat pat s = some r) :
    findMatchPat pat s = some r := by
  cases s with
  | nil => exact absurd rfl hs
  | cons c t => rw [findMatchPat, h]

/-! Claim theorems. -/

/-- C7: the redirect-reconciliation comparison treats a URL and the
same URL with one trailing slash appended as equivalent in both
directions: `isEquivalent a (a ++ "/")` and `isEquivalent (a ++ "/") a`
both hold for every string `a`. -/
theorem trailing_slash_equivalence (a : List Char) :
    isEquivalent a (a ++ ['/']) = true ∧ isEquivalent (a ++ ['/']) a = true := by
  constructor <;> simp [isEquivalent]

/-- C3 (the code lacks the bound the claim describes): against an
upstream that answers every request with a 302 whose `Location` is the
requested URL itself — an always-equivalent redirect — `httpRequest`
exhausts any amount of fuel without settling: the recursion never
terminates, and in particular no 502 (or any other) response is ever
produced, for any starting URL. -/
theorem redirect_recursion_unbounded (fuel : Nat) (url : List Char) :
    httpRequest fuel loopUpstream url = none := by
  induction fuel generalizing url with
  | zero => rfl
  | succ f ih =>
    simp only [httpRequest, loopUpstream]
    rw [if_pos (by simp [isEquivalent])]
    exact ih url

/-- C2: codec round-trip.  For a timestamp `t` of `[0-9a-z_]`
characters and an original URL `u` containing no line terminator (and
not itself matching the archive pattern), decoding the encoded URL
`<archiveBase>/<t>id_/<u>` yields `u` back up to whitespace trimming:
`getOriginalUrl (encodeArchiveUrl t u) = jsTrim u`. -/
theorem codec_roundtrip (t u : List Char)
    (ht : ∀ c ∈ t, isTsChar c = true)
    (hu : ∀ c ∈ u, isLineTerminator c = false)
    (hnm : findMatchPat basePatJs u = none) :
    getOriginalUrl (encodeArchiveUrl t u) = jsTrim u := by
  have henc : encodeArchiveUrl t u = waybackUrlChars ++ (t ++ ("id_/".data ++ u)) := by
    simp [encodeArchiveUrl, List.append_assoc]
  have hdrop : List.dropWhile isTsChar (t ++ ("id_/".data ++ u)) = '/' :: u := by
    rw [dropWhile_append_of_all isTsChar _ ht]
    rfl
  have htake : List.takeWhile isTsChar (t ++ ("id_/".data ++ u)) = t ++ "id_".data := by
    rw [takeWhile_append_of_all isTsChar _ ht]
    rfl
  have hutake : List.takeWhile (fun c => !(isLineTerminator c)) u = u := by
    exact takeWhile_of_all _ (fun c hc => by simp [hu c hc])
  have hmatch : matchAtPat basePatJs (waybackUrlChars ++ (t ++ ("id_/".data ++ u)))
      = some (t ++ "id_".data, u) := by
    rw [matchAtPat, matchPrefixPat_base]
    dsimp only
    rw [hdrop]
    dsimp only
    rw [if_pos (by rfl), htake, hutake]
  have hne : waybackUrlChars ++ (t ++ ("id_/".data ++ u)) ≠ [] := by
    intro hx
    have := congrArg List.length hx
    simp [waybackUrlChars] at this
  rw [getOriginalUrl, henc, findMatchPat_of_matchAt hne hmatch]

/-- Witness for `codec_roundtrip` at `t = "19990412"`,
`u = "http://example.com/"`. -/
theorem codec_roundtrip_w :
    (∀ c ∈ "19990412".data, isTsChar c = true) ∧
    (∀ c ∈ "http://example.com/".data, isLineTerminator c = false) ∧
    findMatchPat basePatJs "http://example.com/".data = none ∧
    getOriginalUrl (encodeArchiveUrl "19990412".data "http://example.com/".data)
      = jsTrim "http://example.com/".data :=
  ⟨by decide, by decide, by decide,
    codec_roundtrip "19990412".data "http://example.com/".data
      (by decide) (by decide) (by decide)⟩

/-- C6 (code bug, unescaped regex dots): the input
`https://webxarchiveyorg/web/19990412id_/http://example.com/` does NOT
match the fixed archive pattern (the archive base with literal dots),
yet the JavaScript `getOriginalUrl` strips it and returns
`http://example.com/` instead of the input unchanged, because `\.`
inside the JavaScript string literal `WAYBACK_URL_FORMAT` is just `.`,
an any-character metachar.  (The Go port escapes the dots and behaves
as the claim states.) -/
theorem decode_unescaped_dot_eval :
    matchesFixedArchivePattern
      "https://webxarchiveyorg/web/19990412id_/http://example.com/".data = false ∧
    getOriginalUrl "https://webxarchiveyorg/web/19990412id_/http://example.com/".data
      = "http://example.com/".data ∧
    getOriginalUrl "https://webxarchiveyorg/web/19990412id_/http://example.com/".data
      ≠ "https://webxarchiveyorg/web/19990412id_/http://example.com/".data := by
  refine ⟨by decide, by decide, by decide⟩

/-- C1: redirect reconciliation.  When the upstream answers the
requested URL with a 301/302: if the decoded original forms of the
requested URL and of the `Location` header are equivalent (equal up to
one trailing slash) the fetcher re-issues the request to the
`Location` URL — the fetch outcome, and hence everything the client
can observe, is exactly that of fetching the `Location` URL, with
this redirect consumed; if they are not equivalent, the fetch resolves
with the redirect response and the handler relays to the client a
redirect with the same status code and the decoded (non-archive)
original URL as `Location`. -/
theorem redirect_reconciliation (upstream : List Char → UpstreamReply)
    (url : List Char) (r : UpstreamResponse) (fuel : Nat)
    (hup : upstream url = .reply r)
    (hsc : r.statusCode = 301 ∨ r.statusCode = 302) :
    (isEquivalent (getOriginalUrl r.location) (getOriginalUrl url) = true →
      httpRequest (fuel + 1) upstream url = httpRequest fuel upstream r.location ∧
      ∀ u', dispatchFetched u' (httpRequest (fuel + 1) upstream url) =
        dispatchFetched u' (httpRequest fuel upstream r.location)) ∧
    (isEquivalent (getOriginalUrl r.location) (getOriginalUrl url) = false →
      httpRequest (fuel + 1) upstream url = some (.ok r) ∧
      dispatchFetched url (httpRequest (fuel + 1) upstream url) =
        some (.redirect r.statusCode (getOriginalUrl r.location))) := by
  have hsc' : (r.statusCode == 302 || r.statusCode == 301) = true := by
    rcases hsc with h | h <;> simp [h]
  constructor
  · intro heq
    have hstep : httpRequest (fuel + 1) upstream url = httpRequest fuel upstream r.location := by
      simp only [httpRequest, hup]
      rw [if_pos (by rw [hsc', heq]; rfl)]
    exact ⟨hstep, fun u' => by rw [hstep]⟩
  · intro heq
    have hstep : httpRequest (fuel + 1) upstream url = some (.ok r) := by
      simp only [httpRequest, hup]
      rw [if_neg (by rw [hsc', heq]; simp)]
      rw [if_neg (by rcases hsc with h | h <;> simp [h])]
    refine ⟨hstep, ?_⟩
    rw [hstep, dispatchFetched]
    rw [if_pos (by rcases hsc with h | h <;> simp [h])]

/-- Witness for `redirect_reconciliation`: a concrete upstream that
302-redirects the 1999 snapshot URL of `http://example.com/` to the
1997 snapshot of the same URL (equivalent decoded forms), checked in
the equivalent branch at fuel 1. -/
theorem redirect_reconciliation_w :
    httpRequest 2
      (fun u => if u == "https://web.archive.org/web/19990412id_/http://example.com/".data
        then .reply ⟨302, "https://web.archive.org/web/19970101id_/http://example.com/".data,
          "text/html".data, []⟩
        else .reply ⟨200, [], "text/html".data, []⟩)
      "https://web.archive.org/web/19990412id_/http://example.com/".data =
    httpRequest 1
      (fun u => if u == "https://web.archive.org/web/19990412id_/http://example.com/".data
        then .reply ⟨302, "https://web.archive.org/web/19970101id_/http://example.com/".data,
          "text/html".data, []⟩
        else .reply ⟨200, [], "text/html".data, []⟩)
      "https://web.archive.org/web/19970101id_/http://example.com/".data :=
  ((redirect_reconciliation
    (fun u => if u == "https://web.archive.org/web/19990412id_/http://example.com/".data
      then .reply ⟨302, "https://web.archive.org/web/19970101id_/http://example.com/".data,
        "text/html".data, []⟩
      else .reply ⟨200, [], "text/html".data, []⟩)
    "https://web.archive.org/web/19990412id_/http://example.com/".data
    ⟨302, "https://web.archive.org/web/19970101id_/http://example.com/".data,
      "text/html".data, []⟩
    1 (by decide) (Or.inr rfl)).1 (by decide)).1

/-- C4 counterexample: the chunk `"\tget http://a/ HTTP/1.0"` has a
request line with exactly 3 space-separated tokens whose first token
`"\tget"` is NOT "GET" case-insensitively, yet the handler dispatches
an upstream request instead of answering 400 — the source compares the
token only after `trim()`. -/
theorem request_validation_cex :
    (splitChar ' ' ((splitCRLF "\tget http://a/ HTTP/1.0".data).headD [])).length = 3 ∧
    ((splitChar ' ' ((splitCRLF "\tget http://a/ HTTP/1.0".data).headD [])).headD []).map
      Char.toLower ≠ "get".data ∧
    handleData "\tget http://a/ HTTP/1.0".data = .dispatch "http://a/".data := by
  refine ⟨by decide, by decide, by decide⟩

/-- C4 as amended: when the first line of the chunk does not split
into exactly 3 space-separated tokens, or its first token — after
trimming surrounding whitespace — is not "GET" case-insensitively, the
handler answers with the fixed 400 bad-request response (status 400,
the fixed HTML body) and never dispatches an upstream request: the
write is the same for every availability outcome and every upstream. -/
theorem request_validation_amended (chunk : List Char)
    (avail : Except (Option Nat) AvailJson)
    (upstream : List Char → UpstreamReply) (fuel : Nat)
    (h : (splitChar ' ' ((splitCRLF chunk).headD [])).length ≠ 3 ∨
      (jsTrim ((splitChar ' ' ((splitCRLF chunk).headD [])).headD [])).map
        Char.toLower ≠ "get".data) :
    handleData chunk = .badRequest ∧
    handleChunk chunk avail upstream fuel = some (.response badRequestResponse) ∧
    badRequestResponse.code = 400 ∧
    badRequestResponse.body = utf8Encode badRequestHtml := by
  have hbd : handleData chunk = .badRequest := by
    simp only [handleData]
    by_cases h0 : (splitCRLF chunk).length > 0
    · rw [if_pos h0]
      rcases h with h | h
      · rw [if_neg (by simpa using h)]
      · by_cases h3 :
          ((splitChar ' ' ((splitCRLF chunk).headD [])).length == 3) = true
        · rw [if_pos h3, if_neg (by simpa using h)]
        · rw [if_neg h3]
    · rw [if_neg h0]
  refine ⟨hbd, ?_, rfl, rfl⟩
  rw [handleChunk, hbd]

/-- Witness for `request_validation_amended` at the chunk
`"POST http://a/ HTTP/1.0"` (3 tokens, method not GET). -/
theorem request_validation_amended_w :
    handleData "POST http://a/ HTTP/1.0".data = .badRequest ∧
    handleChunk "POST http://a/ HTTP/1.0".data (.ok ⟨false, false, []⟩)
      (fun _ => .netError) 0 = some (.response badRequestResponse) ∧
    badRequestResponse.code = 400 ∧
    badRequestResponse.body = utf8Encode badRequestHtml :=
  request_validation_amended "POST http://a/ HTTP/1.0".data
    (.ok ⟨false, false, []⟩) (fun _ => .netError) 0 (Or.inr (by decide))

/-- C5 counterexample: a lookup JSON with no `archived_snapshots`
property at all has no `archived_snapshots.closest` entry, yet the
resolver does NOT report the URL unavailable — it keeps the default
archive URL — and with an upstream answering 200 the client receives a
200 response, not a 404. -/
theorem availability_miss_cex :
    getTargetUrl "http://example.com/".data ⟨false, false, []⟩ =
      some (encodeArchiveUrl timeTravelDatetime "http://example.com/".data) ∧
    returnProxyResponse "http://example.com/".data (.ok ⟨false, false, []⟩)
      (fun _ => .reply ⟨200, [], "text/plain".data, utf8Encode "hello".data⟩) 1 =
      some (.response ⟨200, "OK".data, "text/plain".data, utf8Encode "hello".data⟩) := by
  refine ⟨rfl, by decide⟩

/-- C5 as amended: when the lookup JSON has an `archived_snapshots`
object but no `closest` entry within it, the resolver reports the URL
unavailable (null target) and the client receives the 404 response,
whose HTML body contains the originally requested URL. -/
theorem availability_miss_amended (url : List Char) (json : AvailJson)
    (upstream : List Char → UpstreamReply) (fuel : Nat)
    (h1 : json.hasArchivedSnapshots = true) (h2 : json.hasClosest = false) :
    getTargetUrl url json = none ∧
    returnProxyResponse url (.ok json) upstream fuel =
      some (.response (notFoundResponse url)) ∧
    (notFoundResponse url).code = 404 ∧
    ∃ pre post, (notFoundResponse url).body = pre ++ utf8Encode url ++ post := by
  have hg : getTargetUrl url json = none := by simp [getTargetUrl, h1, h2]
  refine ⟨hg, ?_, rfl, ?_⟩
  · rw [returnProxyResponse, hg]
  · refine ⟨utf8Encode "<!DOCTYPE HTML PUBLIC \"-//IETF//DTD HTML 2.0//EN\">\r\n<html><head>\r\n<title>404 Not Found</title>\r\n</head><body>\r\n<h1>Not Found</h1>\r\nThe remote server could not find the content:<br>\r\n<b>".data,
      utf8Encode "<b>\r\n</body></html>\r\n".data, ?_⟩
    show utf8Encode (notFoundHtml url) = _
    rw [notFoundHtml, utf8Encode_append, utf8Encode_append]

/-- Witness for `availability_miss_amended` at
`url = "http://gone.example/"` and a JSON with `archived_snapshots`
present but `closest` absent. -/
theorem availability_miss_amended_w :
    getTargetUrl "http://gone.example/".data ⟨true, false, []⟩ = none ∧
    returnProxyResponse "http://gone.example/".data (.ok ⟨true, false, []⟩)
      (fun _ => .netError) 0 =
      some (.response (notFoundResponse "http://gone.example/".data)) ∧
    (notFoundResponse "http://gone.example/".data).code = 404 ∧
    ∃ pre post, (notFoundResponse "http://gone.example/".data).body =
      pre ++ utf8Encode "http://gone.example/".data ++ post :=
  availability_miss_amended "http://gone.example/".data ⟨true, false, []⟩
    (fun _ => .netError) 0 rfl rfl

/-- C9: for every client chunk, every availability outcome, every
upstream behaviour and every fuel, whenever the handler writes a
response back, its status code is one of 200, 301, 302, 400, 404,
502. -/
theorem client_status_codes (chunk : List Char)
    (avail : Except (Option Nat) AvailJson)
    (upstream : List Char → UpstreamReply) (fuel : Nat) (w : ClientWrite)
    (h : handleChunk chunk avail upstream fuel = some w) :
    statusOfWrite w = 200 ∨ statusOfWrite w = 301 ∨ statusOfWrite w = 302 ∨
    statusOfWrite w = 400 ∨ statusOfWrite w = 404 ∨ statusOfWrite w = 502 := by
  rw [handleChunk] at h
  cases hd : handleData chunk with
  | badRequest =>
    rw [hd] at h
    cases h
    simp [statusOfWrite, badRequestResponse]
  | dispatch url =>
    rw [hd] at h
    dsimp only at h
    cases avail with
    | error sc =>
      rw [returnProxyResponse.eq_def] at h
      dsimp only at h
      by_cases h4 : (sc == some 404) = true
      · rw [if_pos h4] at h
        cases h
        simp [statusOfWrite, notFoundResponse]
      · rw [if_neg h4] at h
        cases h
        simp [statusOfWrite, badGatewayResponse]
    | ok json =>
      rw [returnProxyResponse.eq_def] at h
      dsimp only at h
      cases hg : getTargetUrl url json with
      | none =>
        rw [hg] at h
        cases h
        simp [statusOfWrite, notFoundResponse]
      | some target =>
        rw [hg] at h
        dsimp only at h
        cases hr : httpRequest fuel upstream target with
        | none => rw [hr] at h; exact absurd h (by simp [dispatchFetched])
        | some fr =>
          rw [hr] at h
          cases fr with
          | ok r =>
            rw [dispatchFetched] at h
            by_cases hb : (r.statusCode == 301 || r.statusCode == 302) = true
            · rw [if_pos hb] at h
              cases h
              have : r.statusCode = 301 ∨ r.statusCode = 302 := by
                simpa using hb
              rcases this with h' | h' <;> simp [statusOfWrite, h']
            · rw [if_neg hb] at h
              cases h
              simp [statusOfWrite]
          | err sc =>
            rw [dispatchFetched] at h
            by_cases h4 : (sc == some 404) = true
            · rw [if_pos h4] at h
              cases h
              simp [statusOfWrite, notFoundResponse]
            · rw [if_neg h4] at h
              cases h
              simp [statusOfWrite, badGatewayResponse]

/-- Witness for `client_status_codes`: a malformed chunk is answered
with the fixed 400 response, whose status is in the allowed set. -/
theorem client_status_codes_w :
    statusOfWrite (.response badRequestResponse) = 200 ∨
    statusOfWrite (.response badRequestResponse) = 301 ∨
    statusOfWrite (.response badRequestResponse) = 302 ∨
    statusOfWrite (.response badRequestResponse) = 400 ∨
    statusOfWrite (.response badRequestResponse) = 404 ∨
    statusOfWrite (.response badRequestResponse) = 502 :=
  client_status_codes "x".data (.ok ⟨false, false, []⟩) (fun _ => .netError) 0
    (.response badRequestResponse) (by rfl)

/-- C10 (implicit): a fetch that settles successfully with a terminal
status in [200,299] — whatever that status is, e.g. 204 or 206 — is
relayed to the client as a response whose status is the literal 200
with reason "OK": the serialized stream begins with the bytes of
`HTTP/1.1 200 OK` followed by CRLF. -/
theorem upstream_2xx_relayed_as_200 (upstream : List Char → UpstreamReply)
    (targetUrl clientUrl : List Char) (fuel : Nat) (r : UpstreamResponse)
    (hr : httpRequest fuel upstream targetUrl = some (.ok r))
    (h2 : 200 ≤ r.statusCode) (h3 : r.statusCode ≤ 299)
    (h4 : r.statusCode ≠ 301) (h5 : r.statusCode ≠ 302) :
    dispatchFetched clientUrl (httpRequest fuel upstream targetUrl) =
      some (.response ⟨200, "OK".data, r.contentType, r.body⟩) ∧
    ∃ restBytes,
      returnHttpResponseBytes ⟨200, "OK".data, r.contentType, r.body⟩ =
        utf8Encode "HTTP/1.1 200 OK\r\n".data ++ restBytes := by
  constructor
  · rw [hr, dispatchFetched, if_neg (by simp [h4, h5])]
  · refine ⟨utf8Encode ("Server: ".data ++ proxyServerName ++ "\r\n".data)
      ++ utf8Encode ("Content-Type: ".data ++ r.contentType ++ "\r\n".data)
      ++ utf8Encode ("Content-Length: ".data ++ natToStr r.body.length ++ "\r\n".data)
      ++ utf8Encode "\r\n".data ++ r.body, ?_⟩
    have hline : ("HTTP/1.1 ".data ++ natToStr (200 : Nat) ++ " ".data
        ++ "OK".data ++ "\r\n".data) = "HTTP/1.1 200 OK\r\n".data := by rfl
    rw [returnHttpResponseBytes]
    rw [show (⟨200, "OK".data, r.contentType, r.body⟩ : ClientResponse).code = 200 from rfl]
    rw [show (⟨200, "OK".data, r.contentType, r.body⟩ : ClientResponse).text = "OK".data from rfl]
    rw [show (⟨200, "OK".data, r.contentType, r.body⟩ : ClientResponse).contentType
      = r.contentType from rfl]
    rw [show (⟨200, "OK".data, r.contentType, r.body⟩ : ClientResponse).body = r.body from rfl]
    rw [hline]
    simp [List.append_assoc]

/-- Witness for `upstream_2xx_relayed_as_200`: an upstream answering
204 is relayed as a 200 response. -/
theorem upstream_2xx_relayed_as_200_w :
    dispatchFetched "http://x/".data
      (httpRequest 1 (fun _ => .reply ⟨204, [], "text/plain".data, [104, 105]⟩)
        "http://x/".data) =
      some (.response ⟨200, "OK".data, "text/plain".data, [104, 105]⟩) :=
  (upstream_2xx_relayed_as_200
    (fun _ => .reply ⟨204, [], "text/plain".data, [104, 105]⟩)
    "http://x/".data "http://x/".data 1 ⟨204, [], "text/plain".data, [104, 105]⟩
    (by decide) (by decide) (by decide) (by decide) (by decide)).1

theorem all_headerChar_append {a b : List Char}
    (ha : ∀ c ∈ a, headerChar c = true) (hb : ∀ c ∈ b, headerChar c = true) :
    ∀ c ∈ a ++ b, headerChar c = true := by
  intro c hc
  rcases List.mem_append.mp hc with h | h
  · exact ha c h
  · exact hb c h

theorem utf8Bytes_ne_nil (c : Char) : utf8Bytes c ≠ [] := by
  unfold utf8Bytes
  dsimp only
  split
  · simp
  · split
    · simp
    · split <;> simp

theorem utf8Encode_cons_ne_nil (c : Char) (s : List Char) :
    utf8Encode (c :: s) ≠ [] := by
  rw [utf8Encode_cons]
  intro h
  rcases List.append_eq_nil.mp h with ⟨h1, _⟩
  exact utf8Bytes_ne_nil c h1

theorem splitAtBlank_crlf_block {l r : List Nat} {p : List Nat × List Nat}
    (hl : ∀ b ∈ l, b ≠ 13) (hne : l ≠ []) (h : splitAtBlank (l ++ r) = some p) :
    splitAtBlank (13 :: 10 :: (l ++ r)) = some (13 :: 10 :: p.1, p.2) := by
  cases l with
  | nil => exact absurd rfl hne
  | cons a t => exact splitAtBlank_crlf_cons (hl a (by simp)) h

/-- C8: wire format of client responses.  Every body-bearing response
stream, split at its first blank line, consists of exactly four header
lines — the status line, a `Server` header, a `Content-Type` header
and a `Content-Length` header whose value is the byte count of the
body — followed by the raw body bytes; every 301/302 redirect stream
consists of exactly two header lines — the status line and a
`Location` header — and no body, so `Content-Type` and
`Content-Length` are omitted.  Header fields are assumed to hold
ASCII text free of CR/LF (well-formed header values). -/
theorem response_wire_format :
    (∀ r : ClientResponse,
      (∀ c ∈ r.text, headerChar c = true) →
      (∀ c ∈ r.contentType, headerChar c = true) →
      splitAtBlank (returnHttpResponseBytes r) =
        some (utf8Encode ("HTTP/1.1 ".data ++ natToStr r.code ++ " ".data ++ r.text)
          ++ 13 :: 10 :: utf8Encode ("Server: ".data ++ proxyServerName)
          ++ 13 :: 10 :: utf8Encode ("Content-Type: ".data ++ r.contentType)
          ++ 13 :: 10 :: utf8Encode ("Content-Length: ".data ++ natToStr r.body.length),
          r.body) ∧
      splitLinesBytes (utf8Encode ("HTTP/1.1 ".data ++ natToStr r.code ++ " ".data ++ r.text)
          ++ 13 :: 10 :: utf8Encode ("Server: ".data ++ proxyServerName)
          ++ 13 :: 10 :: utf8Encode ("Content-Type: ".data ++ r.contentType)
          ++ 13 :: 10 :: utf8Encode ("Content-Length: ".data ++ natToStr r.body.length)) =
        [utf8Encode ("HTTP/1.1 ".data ++ natToStr r.code ++ " ".data ++ r.text),
         utf8Encode ("Server: ".data ++ proxyServerName),
         utf8Encode ("Content-Type: ".data ++ r.contentType),
         utf8Encode ("Content-Length: ".data ++ natToStr r.body.length)]) ∧
    (∀ (sc : Nat) (loc : List Char),
      sc = 301 ∨ sc = 302 →
      (∀ c ∈ loc, headerChar c = true) →
      splitAtBlank (returnHttpRedirectBytes sc loc) =
        some (utf8Encode ("HTTP/1.1 ".data ++ natToStr sc ++ " ".data ++ redirectStatusText sc)
          ++ 13 :: 10 :: utf8Encode ("Location: ".data ++ loc), []) ∧
      splitLinesBytes (utf8Encode ("HTTP/1.1 ".data ++ natToStr sc ++ " ".data
            ++ redirectStatusText sc)
          ++ 13 :: 10 :: utf8Encode ("Location: ".data ++ loc)) =
        [utf8Encode ("HTTP/1.1 ".data ++ natToStr sc ++ " ".data ++ redirectStatusText sc),
         utf8Encode ("Location: ".data ++ loc)]) := by
  have hcrlf : utf8Encode "\r\n".data = [13, 10] := rfl
  have hsplit : ∀ x : List Char,
      utf8Encode (x ++ "\r\n".data) = utf8Encode x ++ [13, 10] := by
    intro x; rw [utf8Encode_append, hcrlf]
  constructor
  · intro r htext hct
    have hc1 : ∀ c ∈ ("HTTP/1.1 ".data ++ natToStr r.code ++ " ".data ++ r.text),
        headerChar c = true :=
      all_headerChar_append (all_headerChar_append
        (all_headerChar_append (by decide) (natToStr_all_headerChar _)) (by decide)) htext
    have hc2 : ∀ c ∈ ("Server: ".data ++ proxyServerName), headerChar c = true := by decide
    have hc3 : ∀ c ∈ ("Content-Type: ".data ++ r.contentType), headerChar c = true :=
      all_headerChar_append (by decide) hct
    have hc4 : ∀ c ∈ ("Content-Length: ".data ++ natToStr r.body.length),
        headerChar c = true :=
      all_headerChar_append (by decide) (natToStr_all_headerChar _)
    have hb1 : ∀ b ∈ utf8Encode ("HTTP/1.1 ".data ++ natToStr r.code ++ " ".data ++ r.text),
        b ≠ 13 := fun b hb => (mem_utf8Encode_safe hc1 b hb).1
    have hb2 : ∀ b ∈ utf8Encode ("Server: ".data ++ proxyServerName), b ≠ 13 :=
      fun b hb => (mem_utf8Encode_safe hc2 b hb).1
    have hb3 : ∀ b ∈ utf8Encode ("Content-Type: ".data ++ r.contentType), b ≠ 13 :=
      fun b hb => (mem_utf8Encode_safe hc3 b hb).1
    have hb4 : ∀ b ∈ utf8Encode ("Content-Length: ".data ++ natToStr r.body.length),
        b ≠ 13 := fun b hb => (mem_utf8Encode_safe hc4 b hb).1
    have hn2 : utf8Encode ("Server: ".data ++ proxyServerName) ≠ [] :=
      utf8Encode_cons_ne_nil 'S' _
    have hn3 : utf8Encode ("Content-Type: ".data ++ r.contentType) ≠ [] :=
      utf8Encode_cons_ne_nil 'C' _
    have hn4 : utf8Encode ("Content-Length: ".data ++ natToStr r.body.length) ≠ [] :=
      utf8Encode_cons_ne_nil 'C' _
    have e4 : splitAtBlank (utf8Encode ("Content-Length: ".data ++ natToStr r.body.length)
        ++ (13 :: 10 :: 13 :: 10 :: r.body)) =
        some (utf8Encode ("Content-Length: ".data ++ natToStr r.body.length), r.body) := by
      simpa using splitAtBlank_append hb4 (splitAtBlank_blank r.body)
    have e3 : splitAtBlank (13 :: 10 ::
        (utf8Encode ("Content-Length: ".data ++ natToStr r.body.length)
          ++ (13 :: 10 :: 13 :: 10 :: r.body))) =
        some (13 :: 10 :: utf8Encode ("Content-Length: ".data ++ natToStr r.body.length),
          r.body) := by
      simpa using splitAtBlank_crlf_block hb4 hn4 e4
    have e3' : splitAtBlank (utf8Encode ("Content-Type: ".data ++ r.contentType)
        ++ (13 :: 10 :: (utf8Encode ("Content-Length: ".data ++ natToStr r.body.length)
          ++ (13 :: 10 :: 13 :: 10 :: r.body)))) =
        some (utf8Encode ("Content-Type: ".data ++ r.contentType)
          ++ (13 :: 10 :: utf8Encode ("Content-Length: ".data ++ natToStr r.body.length)),
          r.body) := by
      simpa using splitAtBlank_append hb3 e3
    have e2 : splitAtBlank (13 :: 10 ::
        (utf8Encode ("Content-Type: ".data ++ r.contentType)
          ++ (13 :: 10 :: (utf8Encode ("Content-Length: ".data ++ natToStr r.body.length)
            ++ (13 :: 10 :: 13 :: 10 :: r.body))))) =
        some (13 :: 10 :: (utf8Encode ("Content-Type: ".data ++ r.contentType)
          ++ (13 :: 10 :: utf8Encode ("Content-Length: ".data ++ natToStr r.body.length))),
          r.body) := by
      simpa using splitAtBlank_crlf_block hb3 hn3 e3'
    have e2' : splitAtBlank (utf8Encode ("Server: ".data ++ proxyServerName)
        ++ (13 :: 10 :: (utf8Encode ("Content-Type: ".data ++ r.contentType)
          ++ (13 :: 10 :: (utf8Encode ("Content-Length: ".data ++ natToStr r.body.length)
            ++ (13 :: 10 :: 13 :: 10 :: r.body)))))) =
        some (utf8Encode ("Server: ".data ++ proxyServerName)
          ++ (13 :: 10 :: (utf8Encode ("Content-Type: ".data ++ r.contentType)
            ++ (13 :: 10 :: utf8Encode ("Content-Length: ".data ++ natToStr r.body.length)))),
          r.body) := by
      simpa using splitAtBlank_append hb2 e2
    have e1 : splitAtBlank (13 :: 10 ::
        (utf8Encode ("Server: ".data ++ proxyServerName)
          ++ (13 :: 10 :: (utf8Encode ("Content-Type: ".data ++ r.contentType)
            ++ (13 :: 10 :: (utf8Encode ("Content-Length: ".data ++ natToStr r.body.length)
              ++ (13 :: 10 :: 13 :: 10 :: r.body))))))) =
        some (13 :: 10 :: (utf8Encode ("Server: ".data ++ proxyServerName)
          ++ (13 :: 10 :: (utf8Encode ("Content-Type: ".data ++ r.contentType)
            ++ (13 :: 10 :: utf8Encode ("Content-Length: ".data ++ natToStr r.body.length))))),
          r.body) := by
      simpa using splitAtBlank_crlf_block hb2 hn2 e2'
    have e1' : splitAtBlank
        (utf8Encode ("HTTP/1.1 ".data ++ natToStr r.code ++ " ".data ++ r.text)
          ++ (13 :: 10 :: (utf8Encode ("Server: ".data ++ proxyServerName)
            ++ (13 :: 10 :: (utf8Encode ("Content-Type: ".data ++ r.contentType)
              ++ (13 :: 10 :: (utf8Encode ("Content-Length: ".data ++ natToStr r.body.length)
                ++ (13 :: 10 :: 13 :: 10 :: r.body)))))))) =
        some (utf8Encode ("HTTP/1.1 ".data ++ natToStr r.code ++ " ".data ++ r.text)
          ++ (13 :: 10 :: (utf8Encode ("Server: ".data ++ proxyServerName)
            ++ (13 :: 10 :: (utf8Encode ("Content-Type: ".data ++ r.contentType)
              ++ (13 :: 10 :: utf8Encode ("Content-Length: ".data ++ natToStr r.body.length)))))),
          r.body) := by
      simpa using splitAtBlank_append hb1 e1
    have hstream : returnHttpResponseBytes r =
        utf8Encode ("HTTP/1.1 ".data ++ natToStr r.code ++ " ".data ++ r.text)
          ++ (13 :: 10 :: (utf8Encode ("Server: ".data ++ proxyServerName)
            ++ (13 :: 10 :: (utf8Encode ("Content-Type: ".data ++ r.contentType)
              ++ (13 :: 10 :: (utf8Encode ("Content-Length: ".data ++ natToStr r.body.length)
                ++ (13 :: 10 :: 13 :: 10 :: r.body))))))) := by
      rw [returnHttpResponseBytes]
      simp only [hsplit, hcrlf]
      simp [List.append_assoc]
    constructor
    · rw [hstream, e1']
      simp [List.append_assoc]
    · have hH :
          utf8Encode ("HTTP/1.1 ".data ++ natToStr r.code ++ " ".data ++ r.text)
            ++ 13 :: 10 :: utf8Encode ("Server: ".data ++ proxyServerName)
            ++ 13 :: 10 :: utf8Encode ("Content-Type: ".data ++ r.contentType)
            ++ 13 :: 10 :: utf8Encode ("Content-Length: ".data ++ natToStr r.body.length) =
          utf8Encode ("HTTP/1.1 ".data ++ natToStr r.code ++ " ".data ++ r.text)
            ++ (13 :: 10 :: (utf8Encode ("Server: ".data ++ proxyServerName)
              ++ (13 :: 10 :: (utf8Encode ("Content-Type: ".data ++ r.contentType)
                ++ (13 :: 10 ::
                  utf8Encode ("Content-Length: ".data ++ natToStr r.body.length)))))) := by
        simp [List.append_assoc]
      rw [hH, splitLinesBytes_append hb1, splitLinesBytes_append hb2,
        splitLinesBytes_append hb3, splitLinesBytes_noCR hb4]
  · intro sc loc hsc hloc
    have hcst : ∀ c ∈ redirectStatusText sc, headerChar c = true := by
      rcases hsc with rfl | rfl <;> decide
    have hc1 : ∀ c ∈ ("HTTP/1.1 ".data ++ natToStr sc ++ " ".data ++ redirectStatusText sc),
        headerChar c = true :=
      all_headerChar_append (all_headerChar_append
        (all_headerChar_append (by decide) (natToStr_all_headerChar _)) (by decide)) hcst
    have hcL : ∀ c ∈ ("Location: ".data ++ loc), headerChar c = true :=
      all_headerChar_append (by decide) hloc
    have hb1 : ∀ b ∈ utf8Encode ("HTTP/1.1 ".data ++ natToStr sc ++ " ".data
        ++ redirectStatusText sc), b ≠ 13 := fun b hb => (mem_utf8Encode_safe hc1 b hb).1
    have hbL : ∀ b ∈ utf8Encode ("Location: ".data ++ loc), b ≠ 13 :=
      fun b hb => (mem_utf8Encode_safe hcL b hb).1
    have hnL : utf8Encode ("Location: ".data ++ loc) ≠ [] :=
      utf8Encode_cons_ne_nil 'L' _
    have eL : splitAtBlank (utf8Encode ("Location: ".data ++ loc)
        ++ (13 :: 10 :: 13 :: 10 :: ([] : List Nat))) =
        some (utf8Encode ("Location: ".data ++ loc), ([] : List Nat)) := by
      simpa using splitAtBlank_append hbL (splitAtBlank_blank [])
    have eL1 : splitAtBlank (13 :: 10 :: (utf8Encode ("Location: ".data ++ loc)
        ++ (13 :: 10 :: 13 :: 10 :: ([] : List Nat)))) =
        some (13 :: 10 :: utf8Encode ("Location: ".data ++ loc), ([] : List Nat)) := by
      simpa using splitAtBlank_crlf_block hbL hnL eL
    have eL0 : splitAtBlank (utf8Encode ("HTTP/1.1 ".data ++ natToStr sc ++ " ".data
          ++ redirectStatusText sc)
        ++ (13 :: 10 :: (utf8Encode ("Location: ".data ++ loc)
          ++ (13 :: 10 :: 13 :: 10 :: ([] : List Nat))))) =
        some (utf8Encode ("HTTP/1.1 ".data ++ natToStr sc ++ " ".data
            ++ redirectStatusText sc)
          ++ (13 :: 10 :: utf8Encode ("Location: ".data ++ loc)), ([] : List Nat)) := by
      simpa using splitAtBlank_append hb1 eL1
    have hstreamB : returnHttpRedirectBytes sc loc =
        utf8Encode ("HTTP/1.1 ".data ++ natToStr sc ++ " ".data ++ redirectStatusText sc)
          ++ (13 :: 10 :: (utf8Encode ("Location: ".data ++ loc)
            ++ (13 :: 10 :: 13 :: 10 :: ([] : List Nat)))) := by
      rw [returnHttpRedirectBytes]
      simp only [utf8Encode_append, hcrlf]
      simp [List.append_assoc]
    constructor
    · rw [hstreamB, eL0]
    · rw [splitLinesBytes_append hb1, splitLinesBytes_noCR hbL]

/-- Witness for `response_wire_format`: a concrete 200 response with
body bytes `[104, 105]` and a concrete 302 redirect. -/
theorem response_wire_format_w :
    splitAtBlank (returnHttpResponseBytes ⟨200, "OK".data, "text/html".data, [104, 105]⟩) =
      some (utf8Encode ("HTTP/1.1 ".data ++ natToStr (200 : Nat) ++ " ".data ++ "OK".data)
        ++ 13 :: 10 :: utf8Encode ("Server: ".data ++ proxyServerName)
        ++ 13 :: 10 :: utf8Encode ("Content-Type: ".data ++ "text/html".data)
        ++ 13 :: 10 :: utf8Encode ("Content-Length: ".data
          ++ natToStr ([104, 105] : List Nat).length),
        [104, 105]) ∧
    splitAtBlank (returnHttpRedirectBytes 302 "http://example.com/".data) =
      some (utf8Encode ("HTTP/1.1 ".data ++ natToStr (302 : Nat) ++ " ".data
          ++ redirectStatusText 302)
        ++ 13 :: 10 :: utf8Encode ("Location: ".data ++ "http://example.com/".data), []) :=
  ⟨(response_wire_format.1 ⟨200, "OK".data, "text/html".data, [104, 105]⟩
      (by decide) (by decide)).1,
   (response_wire_format.2 302 "http://example.com/".data (Or.inr rfl) (by decide)).1⟩
